import Mathlib

/-!
Verification development for the BIBLEFIGHT repository
(`src/BIBLEFIGHT/server.py`).  The Python code is shallowly embedded:
Python `str` becomes `String`, Python `int` becomes `Int`, fallible
results become `Option`/`Except`, and the external collaborators
(HTTP client, model sampling) become explicit function parameters.
String operations (`strip`, `upper`, `lower`, `split`, `join`,
slicing) are modelled over `List Char` with the ASCII whitespace set
`[' ', '\t', '\n', '\r', '\x0b', '\x0c']`; Python's operations are
additionally Unicode-aware, which is irrelevant to the scope of the
properties considered here and noted where a definition is affected.
-/

/-- Python's `str` whitespace set (ASCII part), used by `str.strip`,
`str.split()` and the regex class `\s`. -/
def isPySpace (c : Char) : Bool :=
  c = ' ' || c = '\t' || c = '\n' || c = '\r' || c = '\x0b' || c = '\x0c'

/-- `str.strip()` on the character list: drop trailing whitespace
(via double reverse), then leading whitespace. -/
def stripL (l : List Char) : List Char :=
  ((l.reverse.dropWhile isPySpace).reverse).dropWhile isPySpace

/-- Python `s.strip()`. -/
def pyStrip (s : String) : String :=
  String.mk (stripL s.data)

/-- Python `s.upper()` (ASCII model; `Char.toUpper` maps a-z to A-Z). -/
def pyUpper (s : String) : String :=
  String.mk (s.data.map Char.toUpper)

/-- Python `s.lower()` (ASCII model). -/
def pyLower (s : String) : String :=
  String.mk (s.data.map Char.toLower)

/-- Auxiliary for single-character `str.split(sep)`: accumulate the
current segment (reversed) and cut at each separator. -/
def splitCharAux (sep : Char) : List Char → List Char → List (List Char)
  | [], acc => [acc.reverse]
  | c :: rest, acc =>
    if c = sep then acc.reverse :: splitCharAux sep rest []
    else splitCharAux sep rest (c :: acc)

/-- Python `s.split(sep)` for a one-character separator.
`"".split(sep) = [""]` and trailing separators produce `""` segments,
as in Python. -/
def pySplitChar (s : String) (sep : Char) : List String :=
  (splitCharAux sep s.data []).map String.mk

/-- Python `s.replace(a, b)` for one-character `a` and `b`. -/
def pyReplaceChar (s : String) (a b : Char) : String :=
  String.mk (s.data.map fun c => if c = a then b else c)

/-- Python `x or default` for an optional string field: `None` and the
empty string are falsy and select the default. -/
def pyOrStr (o : Option String) (d : String) : String :=
  match o with
  | none => d
  | some s => if s = "" then d else s

/-- Truthiness of an optional string (`if settings.BIBLE_API_KEY:`):
`None` and `""` are falsy. -/
def pyTruthyOpt (o : Option String) : Bool :=
  match o with
  | none => false
  | some s => s != ""

/-- Auxiliary for `str.split()` with no separator: whitespace runs
delimit words, empty words are never produced. -/
def wordsAux : List Char → List Char → List (List Char)
  | [], acc => if acc = [] then [] else [acc.reverse]
  | c :: rest, acc =>
    if isPySpace c then
      if acc = [] then wordsAux rest []
      else acc.reverse :: wordsAux rest []
    else wordsAux rest (c :: acc)

/-- Join character-list words with single spaces
(`" ".join(words)` on nonempty-word lists). -/
def joinSp : List (List Char) → List Char
  | [] => []
  | [w] => w
  | w :: ws => w ++ ' ' :: joinSp ws

/-- `" ".join(text.split())`: collapse whitespace runs to single
spaces and trim both ends. -/
def collapse (l : List Char) : List Char :=
  joinSp (wordsAux l [])

/-- Python slice `l[:stop]` for an `int` stop: negative indices count
from the end, clamped at zero. -/
def pySliceTo (l : List Char) (stop : Int) : List Char :=
  if stop < 0 then l.take (l.length - stop.natAbs) else l.take stop.toNat

/-- `make_snippet` from `server.py`:
`s = " ".join((text or "").split())` (for a `str` argument `text or
"" ` is `text` itself); return `s` if `len(s) <= limit`, else
`s[: limit - 1] + "…"`. -/
def make_snippet (text : String) (limit : Int) : String :=
  let s := collapse text.data
  if (s.length : Int) ≤ limit then String.mk s
  else String.mk (pySliceTo s (limit - 1) ++ ['…'])

/-- Python `sep.join(xs)` for string lists. -/
def sepJoin (sep : String) : List String → String
  | [] => ""
  | [x] => x
  | x :: xs => x ++ sep ++ sepJoin sep xs

/-- Parse a nonempty all-ASCII-digit character list into a `Nat`. -/
def digitsToNat : List Char → Option Nat
  | [] => none
  | l =>
    if l.all Char.isDigit then
      some (l.foldl (fun n c => n * 10 + (c.toNat - 48)) 0)
    else none

/-- Python `int(s)`: strip whitespace, optional sign, digits.
(The model is ASCII-only and omits Python's underscore separators and
non-ASCII digits, which cannot occur in the identifiers concerned.) -/
def pyInt (s : String) : Option Int :=
  match (stripL s.data) with
  | '-' :: rest => (digitsToNat rest).map fun n => -(n : Int)
  | '+' :: rest => (digitsToNat rest).map fun n => (n : Int)
  | l => (digitsToNat l).map fun n => (n : Int)

/-- Is `n` a prefix of `h`? (helper for substring containment). -/
def isPrefixL : List Char → List Char → Bool
  | [], _ => true
  | _ :: _, [] => false
  | x :: xs, y :: ys => x = y && isPrefixL xs ys

/-- Substring containment over character lists. -/
def containsSubL (n : List Char) : List Char → Bool
  | [] => isPrefixL n []
  | c :: t => isPrefixL n (c :: t) || containsSubL n t

/-- Python `needle in haystack` for strings. -/
def pyContains (haystack needle : String) : Bool :=
  containsSubL needle.data haystack.data

/-- The `USFM_TO_BOOK` table from `server.py`: API.Bible/USFM book
codes to human-readable names, as a lookup function
(`dict.get` returns `None` for missing keys). -/
def USFM_TO_BOOK : String → Option String
  | "GEN" => some "Genesis"
  | "EXO" => some "Exodus"
  | "LEV" => some "Leviticus"
  | "NUM" => some "Numbers"
  | "DEU" => some "Deuteronomy"
  | "JOS" => some "Joshua"
  | "JDG" => some "Judges"
  | "RUT" => some "Ruth"
  | "1SA" => some "1 Samuel"
  | "2SA" => some "2 Samuel"
  | "1KI" => some "1 Kings"
  | "2KI" => some "2 Kings"
  | "1CH" => some "1 Chronicles"
  | "2CH" => some "2 Chronicles"
  | "EZR" => some "Ezra"
  | "NEH" => some "Nehemiah"
  | "EST" => some "Esther"
  | "JOB" => some "Job"
  | "PSA" => some "Psalms"
  | "PRO" => some "Proverbs"
  | "ECC" => some "Ecclesiastes"
  | "SNG" => some "Song of Solomon"
  | "ISA" => some "Isaiah"
  | "JER" => some "Jeremiah"
  | "LAM" => some "Lamentations"
  | "EZK" => some "Ezekiel"
  | "DAN" => some "Daniel"
  | "HOS" => some "Hosea"
  | "JOL" => some "Joel"
  | "AMO" => some "Amos"
  | "OBA" => some "Obadiah"
  | "JON" => some "Jonah"
  | "MIC" => some "Micah"
  | "NAM" => some "Nahum"
  | "HAB" => some "Habakkuk"
  | "ZEP" => some "Zephaniah"
  | "HAG" => some "Haggai"
  | "ZEC" => some "Zechariah"
  | "MAL" => some "Malachi"
  | "MAT" => some "Matthew"
  | "MRK" => some "Mark"
  | "LUK" => some "Luke"
  | "JHN" => some "John"
  | "ACT" => some "Acts"
  | "ROM" => some "Romans"
  | "1CO" => some "1 Corinthians"
  | "2CO" => some "2 Corinthians"
  | "GAL" => some "Galatians"
  | "EPH" => some "Ephesians"
  | "PHP" => some "Philippians"
  | "COL" => some "Colossians"
  | "1TH" => some "1 Thessalonians"
  | "2TH" => some "2 Thessalonians"
  | "1TI" => some "1 Timothy"
  | "2TI" => some "2 Timothy"
  | "TIT" => some "Titus"
  | "PHM" => some "Philemon"
  | "HEB" => some "Hebrews"
  | "JAS" => some "James"
  | "1PE" => some "1 Peter"
  | "2PE" => some "2 Peter"
  | "1JN" => some "1 John"
  | "2JN" => some "2 John"
  | "3JN" => some "3 John"
  | "JUD" => some "Jude"
  | "REV" => some "Revelation"
  | _ => none

/-- The inner `parse` of `_normalize_api_bible_id`: split a side on
`.`; exactly three segments, a known book code
(`segs[0].strip().upper()`), and `int`-parsable chapter and verse,
else no result (Python's `int` failure raises and is swallowed by
the enclosing `try`, which amounts to the same absent result). -/
def parseUsfmSide (p : String) : Option (String × Int × Int) :=
  match pySplitChar p '.' with
  | [b, ch, vs] =>
    match USFM_TO_BOOK (pyUpper (pyStrip b)), pyInt ch, pyInt vs with
    | some book, some c, some v => some (book, c, v)
    | _, _, _ => none
  | _ => none

/-- Body of `_normalize_api_bible_id` after the split on `-`: parse
the first side (and the second when present; further dash segments
are ignored as in the Python indexing `parts[0]`/`parts[1]`) and
assemble the bible-api.com reference. -/
def normCore : List String → Option String
  | [] => none
  | p0 :: rest =>
    match parseUsfmSide p0 with
    | none => none
    | some (book, ch, vs) =>
      match rest with
      | [] => some (book ++ " " ++ toString ch ++ ":" ++ toString vs)
      | p1 :: _ =>
        match parseUsfmSide p1 with
        | none => none
        | some (rb, rc, rv) =>
          if book = rb ∧ ch = rc then
            some (book ++ " " ++ toString ch ++ ":" ++ toString vs ++ "-"
              ++ toString rv)
          else
            some (book ++ " " ++ toString ch ++ ":" ++ toString vs ++ "-"
              ++ rb ++ " " ++ toString rc ++ ":" ++ toString rv)

/-- `_normalize_api_bible_id` from `server.py`: convert API.Bible
identifiers like `JHN.3.16`, or dash-joined ranges, into
bible-api.com references; the falsy-empty check, then `normCore` on
the dash-split parts. -/
def _normalize_api_bible_id (id_str : String) : Option String :=
  if id_str = "" then none else normCore (pySplitChar id_str '-')

/-- `_fallback_candidate_refs` from `server.py`: deterministic keyword
table, truncated by `refs[: max(1, int(max_results))]`. -/
def _fallback_candidate_refs (claim : String) (max_results : Int) :
    List String :=
  let text := pyLower claim
  let refs :=
    if pyContains text "money" || pyContains text "wealth"
        || pyContains text "rich" then
      ["1 Timothy 6:10", "Matthew 6:24", "Proverbs 11:28"]
    else if pyContains text "helps themselves" then
      ["Proverbs 28:26", "Psalm 37:5", "Jeremiah 17:5", "Matthew 6:33"]
    else
      ["John 3:16", "Psalm 23:1-3", "Matthew 5:9-12"]
  refs.take (max 1 max_results).toNat

/-- `_fallback_challenger_refs` from `server.py`. -/
def _fallback_challenger_refs (claim : String) (max_results : Int) :
    List String :=
  let text := pyLower claim
  let refs :=
    if pyContains text "money" || pyContains text "wealth"
        || pyContains text "rich" then
      ["Matthew 5:9-12", "Luke 12:15", "James 5:1-6"]
    else if pyContains text "helps themselves" then
      ["Ephesians 2:8-9", "Psalm 121:1-2", "Proverbs 3:5-6"]
    else
      ["Romans 3:23", "Ephesians 2:8-9", "Micah 6:8"]
  refs.take (max 1 max_results).toNat

/-- Shared parsing of an LLM sampling response in
`extract_references_via_llm` and `propose_challengers`:
`text = (response.text or "").strip()`, replace newlines by spaces,
split on `;`, strip each part, drop empties. -/
def parseSampledRefs (t : String) : List String :=
  (((pySplitChar (pyReplaceChar (pyStrip t) '\n' ' ') ';').map
    pyStrip).filter fun p => p ≠ "")

/-- `extract_references_via_llm` from `server.py`, with the sampling
call abstracted as its outcome: `.error` models the `except` branch
(sampling failure → `[]`), `.ok t` models a response whose `.text or
""` is `t`. -/
def extract_references_via_llm (sample : Except Unit String) :
    List String :=
  match sample with
  | .error _ => []
  | .ok t => parseSampledRefs t

/-- `propose_challengers` from `server.py`; identical response
parsing. -/
def propose_challengers (sample : Except Unit String) : List String :=
  match sample with
  | .error _ => []
  | .ok t => parseSampledRefs t

/-- The JSON body of a bible-api.com response, restricted to the
fields `fetch_passage_with_context` reads: `data.get("reference")`
(absent → `none`) and `data.get("verses") or []`, each verse
contributing its `v.get("text", "")` string.  A missing or null
`verses` field coincides with the empty list under the `or []`. -/
structure FetchBody where
  reference? : Option String
  verses : List String
  deriving DecidableEq

/-- The passage dict built by `fetch_passage_with_context`, plus the
two optional keys `analyze_claim` may add
(`snippet`, `snippet_chars`). -/
structure Passage where
  reference : String
  text : String
  translation : String
  raw : FetchBody
  snippet? : Option String := none
  snippetChars? : Option Int := none
  deriving DecidableEq

/-- URL construction in `fetch_passage_with_context`:
`reference.replace(" ", "+")` interpolated with the translation. -/
def buildUrl (reference translation : String) : String :=
  "https://bible-api.com/" ++ pyReplaceChar reference ' ' '+'
    ++ "?translation=" ++ translation

/-- The retry computation `re.match(r"^(\d)\s+(.*)$", reference)` and
`alt = m.group(1) + m.group(2)`.  The match succeeds iff the first
character is a digit, at least one whitespace character follows, and
the remainder after the maximal whitespace run contains no newline
other than a final one (`.` does not cross newlines and `$` also
matches just before a terminating newline, which is then dropped from
`group(2)`). -/
def ordinalAlt (reference : String) : Option String :=
  match reference.data with
  | [] => none
  | d :: rest =>
    if d.isDigit then
      if rest.takeWhile isPySpace = [] then none
      else if ¬ (rest.dropWhile isPySpace).contains '\n' then
        some (String.mk (d :: rest.dropWhile isPySpace))
      else if (rest.dropWhile isPySpace).getLast? = some '\n' ∧
          ¬ ((rest.dropWhile isPySpace).dropLast.contains '\n') then
        some (String.mk (d :: (rest.dropWhile isPySpace).dropLast))
      else none
    else none

/-- The success path of `fetch_passage_with_context`: empty verse
list → `None`; otherwise the passage dict with
`" ".join(v.get("text", "").strip() for v in verses)` stripped, and
`data.get("reference") or reference`. -/
def passageFromBody (body : FetchBody) (reference translation : String) :
    Option Passage :=
  if body.verses = [] then none
  else
    some
      { reference := pyOrStr body.reference? reference
        text := pyStrip (sepJoin " " (body.verses.map pyStrip))
        translation := translation
        raw := body }

/-- `fetch_passage_with_context` from `server.py`, with the HTTP
client abstracted as a function from URL to
(status code, parsed JSON body); total, so the embedding covers the
non-raising executions.  Also returns the list of URLs requested, in
order, to express the retry discipline.  The unused `context_n`
parameter is kept as in the source. -/
def fetch_passage_with_context (client : String → Int × FetchBody)
    (reference translation : String) (context_n : Int) :
    Option Passage × List String :=
  if (client (buildUrl reference translation)).1 ≠ 200 then
    match ordinalAlt reference with
    | some alt =>
      if (client (buildUrl alt translation)).1 ≠ 200 then
        (none, [buildUrl reference translation, buildUrl alt translation])
      else
        (passageFromBody (client (buildUrl alt translation)).2 reference
          translation,
         [buildUrl reference translation, buildUrl alt translation])
    | none => (none, [buildUrl reference translation])
  else
    (passageFromBody (client (buildUrl reference translation)).2 reference
      translation,
     [buildUrl reference translation])

/-- The fields of the process-wide `Settings` object
(`settings.py`) that the two tool handlers read. -/
structure Settings where
  BIBLE_API_KEY : Option String
  DEFAULT_TRANSLATION : String
  DEFAULT_CONTEXT_VERSES : Int
  DEFAULT_SNIPPET_CHARS : Int
  DEFAULT_INCLUDE_SNIPPETS : Bool
  DEFAULT_MAX_RESULTS : Int
  DEFAULT_INCLUDE_SUPPORTING : Bool
  DEFAULT_INCLUDE_CHALLENGERS : Bool

/-- `AnalyzeClaimArgs` from `server.py`.  The advanced search knobs
(`search_sort`, `search_range`, …) only shape the outbound search
request, whose outcome is abstracted in `Env`, so they are omitted
here. -/
structure AnalyzeArgs where
  claim : String
  translation : Option String := none
  context_verses : Option Int := none
  snippet_chars : Option Int := none
  include_snippets : Option Bool := none
  include_supporting : Option Bool := none
  include_challengers : Option Bool := none

/-- Outcomes of the external collaborators during one
`analyze_claim` invocation.  `searchOutcome` abstracts
`search_candidates_api_bible` (`.error` = the call raised, caught by
the handler's `except`); the two sampling fields are the raw LLM
response texts (`.error` = sampling raised, turned into `[]` inside
the extractors); `fetchOutcome` abstracts
`fetch_passage_with_context` per reference (`.error` = the fetch
raised, caught per-reference by the handler; translation and context
are fixed within one invocation). -/
structure Env where
  searchOutcome : Except String (List String)
  sampleExtract : Except Unit String
  sampleChallenge : Except Unit String
  fetchOutcome : String → Except Unit (Option Passage)

/-- One outbound call performed by `analyze_claim`, for stating which
external interactions an execution performs. -/
inductive ExtCall where
  | searchCall (query : String)
  | sampleExtractCall (claim : String)
  | sampleChallengeCall (claim : String)
  | fetchCall (reference translation : String) (contextN : Int)
  deriving DecidableEq

/-- The dict returned by `analyze_claim`: either the error shape or
the full result object. -/
inductive AnalyzeResult where
  | error (msg : String)
  | ok (claim translation : String) (contextVerses : Int)
      (candidates challengers : List Passage)
  deriving DecidableEq

/-- The dedup key of the candidate post-processing loop:
`r.strip().upper()`. -/
def dedupKey (r : String) : String :=
  pyUpper (pyStrip r)

/-- The deduplication loop of `analyze_claim` (lines 282-288): keep a
reference when its key is nonempty and unseen, preserving order. -/
def dedupAux : List String → List String → List String
  | [], _ => []
  | r :: rest, seen =>
    if dedupKey r ≠ "" ∧ dedupKey r ∉ seen then
      r :: dedupAux rest (dedupKey r :: seen)
    else dedupAux rest seen

/-- The candidate post-processing of `analyze_claim`: deduplicate,
then `unique_refs[: max(1, int(settings.DEFAULT_MAX_RESULTS))]`. -/
def post_process (refs : List String) (maxResults : Int) : List String :=
  (dedupAux refs []).take (max 1 maxResults).toNat

/-- Step 1 of `analyze_claim` (lines 256-289) as its own definition:
candidate resolution followed by post-processing.  With a truthy key
the search outcome is used as-is on success; only a raised search
falls back to sampling and then to the keyword table.  Also returns
the external calls performed. -/
def resolve_candidates (settings : Settings) (env : Env)
    (claim : String) : List String × List ExtCall :=
  if pyTruthyOpt settings.BIBLE_API_KEY then
    match env.searchOutcome with
    | .ok refs =>
      (post_process refs settings.DEFAULT_MAX_RESULTS, [.searchCall claim])
    | .error _ =>
      let refs := extract_references_via_llm env.sampleExtract
      let refs2 :=
        if refs = [] then
          _fallback_candidate_refs claim settings.DEFAULT_MAX_RESULTS
        else refs
      (post_process refs2 settings.DEFAULT_MAX_RESULTS,
        [.searchCall claim, .sampleExtractCall claim])
  else
    let refs := extract_references_via_llm env.sampleExtract
    let refs2 :=
      if refs = [] then
        _fallback_candidate_refs claim settings.DEFAULT_MAX_RESULTS
      else refs
    (post_process refs2 settings.DEFAULT_MAX_RESULTS,
      [.sampleExtractCall claim])

/-- Snippet attachment inside the fetch loops:
`if include_snippets and snippet_limit is not None`. -/
def attachSnippet (p : Passage) (inclSnip : Bool) (lim : Option Int) :
    Passage :=
  match inclSnip, lim with
  | true, some l =>
    { p with snippet? := some (make_snippet p.text l)
             snippetChars? := some l }
  | _, _ => p

/-- The sequential fetch loop of `analyze_claim` (steps 2 and 4): a
raising fetch or a `None` passage drops the reference from the
output; both loops record their calls. -/
def fetchMany (env : Env) (refs : List String) (translation : String)
    (contextN : Int) (inclSnip : Bool) (lim : Option Int) :
    List Passage × List ExtCall :=
  match refs with
  | [] => ([], [])
  | ref :: rest =>
    let tail := fetchMany env rest translation contextN inclSnip lim
    match env.fetchOutcome ref with
    | .error _ => (tail.1, .fetchCall ref translation contextN :: tail.2)
    | .ok none => (tail.1, .fetchCall ref translation contextN :: tail.2)
    | .ok (some p) =>
      (attachSnippet p inclSnip lim :: tail.1,
        .fetchCall ref translation contextN :: tail.2)

/-- The `analyze_claim` tool handler from `server.py`, over abstract
collaborator outcomes; returns the response value and the external
calls performed, in order.  Mirrors: trim and validate the claim,
apply setting defaults (`or` falsiness for the translation, the
`max(1, …)` snippet floor, the truthiness test on
`DEFAULT_SNIPPET_CHARS`), resolve candidates, fetch supporting
passages when enabled, propose and fetch challengers when enabled. -/
def analyze_claim (settings : Settings) (env : Env)
    (args : AnalyzeArgs) : AnalyzeResult × List ExtCall :=
  let claim := pyStrip args.claim
  if claim = "" then (.error "Empty claim", [])
  else
    let translation := pyLower (pyOrStr args.translation
      settings.DEFAULT_TRANSLATION)
    let context_n := args.context_verses.getD
      settings.DEFAULT_CONTEXT_VERSES
    let snippet_limit : Option Int :=
      match args.snippet_chars with
      | some v => some (max 1 v)
      | none =>
        if settings.DEFAULT_SNIPPET_CHARS ≠ 0 then
          some (max 1 settings.DEFAULT_SNIPPET_CHARS)
        else none
    let include_snippets := args.include_snippets.getD
      settings.DEFAULT_INCLUDE_SNIPPETS
    let include_supporting := args.include_supporting.getD
      settings.DEFAULT_INCLUDE_SUPPORTING
    let include_challengers := args.include_challengers.getD
      settings.DEFAULT_INCLUDE_CHALLENGERS
    let rc := resolve_candidates settings env claim
    let sup :=
      if include_supporting then
        fetchMany env rc.1 translation context_n include_snippets
          snippet_limit
      else ([], [])
    let ch : List String × List ExtCall :=
      if include_challengers then
        let cs := propose_challengers env.sampleChallenge
        let cs2 :=
          if cs = [] then
            _fallback_challenger_refs claim settings.DEFAULT_MAX_RESULTS
          else cs
        (cs2, [.sampleChallengeCall claim])
      else ([], [])
    let chp :=
      if include_challengers ∧ ch.1 ≠ [] then
        fetchMany env ch.1 translation context_n include_snippets
          snippet_limit
      else ([], [])
    (.ok claim translation context_n sup.1 chp.1,
      rc.2 ++ sup.2 ++ ch.2 ++ chp.2)

/-- `GetReferenceArgs` from `server.py`. -/
structure GetRefArgs where
  reference : String
  translation : Option String := none
  context_verses : Option Int := none

/-- The dict returned by `get_reference`. -/
inductive GetRefResult where
  | error (msg : String)
  | ok (p : Passage)
  deriving DecidableEq

/-- The `get_reference` tool handler from `server.py`:
`(args.reference or "").strip()` (the `or ""` is the identity on a
required string field), empty → error, else delegate to the passage
fetcher and report absence as the not-found error. -/
def get_reference (settings : Settings)
    (client : String → Int × FetchBody) (args : GetRefArgs) :
    GetRefResult :=
  if pyStrip args.reference = "" then .error "Empty reference"
  else
    match (fetch_passage_with_context client (pyStrip args.reference)
      (pyLower (pyOrStr args.translation settings.DEFAULT_TRANSLATION))
      (args.context_verses.getD settings.DEFAULT_CONTEXT_VERSES)).1 with
    | none => .error ("Reference not found: " ++ pyStrip args.reference)
    | some p => .ok p

def defaultSettings : Settings :=
  { BIBLE_API_KEY := none, DEFAULT_TRANSLATION := "kjv"
    DEFAULT_CONTEXT_VERSES := 7, DEFAULT_SNIPPET_CHARS := 180
    DEFAULT_INCLUDE_SNIPPETS := true, DEFAULT_MAX_RESULTS := 5
    DEFAULT_INCLUDE_SUPPORTING := true, DEFAULT_INCLUDE_CHALLENGERS := true }

def offlineEnv : Env :=
  { searchOutcome := .error "boom", sampleExtract := .error ()
    sampleChallenge := .error (), fetchOutcome := fun _ => .ok none }

def timothyBody : FetchBody :=
  { reference? := some "1 Timothy 6:10", verses := ["For the love ", " of money"] }

def keyedSettings : Settings :=
  { defaultSettings with BIBLE_API_KEY := some "k" }

def emptySearchEnv : Env :=
  { offlineEnv with searchOutcome := .ok [] }

def retryClient : String → Int × FetchBody :=
  fun u =>
    if u = "https://bible-api.com/1Timothy+6:10?translation=kjv" then
      (200, timothyBody)
    else (404, { reference? := none, verses := [] })

def emptyRefClient : String → Int × FetchBody :=
  fun _ => (200, { reference? := some "", verses := ["In the beginning"] })

/-- Fixed points of whitespace collapsing: the empty string, a single
whitespace-free word, or a word, one space, and another fixed point. -/
inductive GoodF : List Char → Prop
  | nil : GoodF []
  | single (w : List Char) : w ≠ [] → (∀ c ∈ w, isPySpace c = false) →
      GoodF w
  | cons (w l : List Char) : w ≠ [] →
      (∀ c ∈ w, isPySpace c = false) → l ≠ [] → GoodF l →
      GoodF (w ++ ' ' :: l)

lemma dedupAux_sublist : ∀ (l seen : List String), List.Sublist (dedupAux l seen) l := by
  intro l
  induction l with
  | nil => intro seen; simp [dedupAux]
  | cons r rest ih =>
    intro seen
    unfold dedupAux
    by_cases h : dedupKey r ≠ "" ∧ dedupKey r ∉ seen
    · rw [if_pos h]
      exact List.Sublist.cons₂ r (ih _)
    · rw [if_neg h]
      exact List.Sublist.cons r (ih _)

lemma dedupAux_key_not_seen : ∀ (l seen : List String) (x : String),
    x ∈ dedupAux l seen → dedupKey x ∉ seen := by
  intro l
  induction l with
  | nil => intro seen x hx; simp [dedupAux] at hx
  | cons r rest ih =>
    intro seen x hx
    unfold dedupAux at hx
    by_cases h : dedupKey r ≠ "" ∧ dedupKey r ∉ seen
    · rw [if_pos h] at hx
      rcases List.mem_cons.mp hx with h1 | h1
      · subst h1; exact h.2
      · have := ih _ _ h1
        intro hmem
        exact this (List.mem_cons_of_mem _ hmem)
    · rw [if_neg h] at hx
      exact ih _ _ hx

lemma dedupAux_pairwise : ∀ (l seen : List String),
    (dedupAux l seen).Pairwise (fun a b => dedupKey a ≠ dedupKey b) := by
  intro l
  induction l with
  | nil => intro seen; simp [dedupAux]
  | cons r rest ih =>
    intro seen
    unfold dedupAux
    by_cases h : dedupKey r ≠ "" ∧ dedupKey r ∉ seen
    · rw [if_pos h]
      refine List.Pairwise.cons ?_ (ih _)
      intro x hx heq
      have := dedupAux_key_not_seen _ _ _ hx
      exact this (heq ▸ List.mem_cons_self _ _)
    · rw [if_neg h]
      exact ih _

lemma toNat_max_one (m : Int) : ((max 1 m).toNat : Int) = max 1 m := by
  omega

/-- C2: for every raw candidate list the post-processed list used by
`analyze_claim` has no two entries equal after trimming and
case-insensitive comparison (`dedupKey`), is a sublist of the input
(hence preserves first-seen order of survivors), and has length at
most `max 1 maxResults`. -/
theorem C2_post_process_invariants (refs : List String) (m : Int) :
    (post_process refs m).Pairwise (fun a b => dedupKey a ≠ dedupKey b) ∧
    List.Sublist (post_process refs m) refs ∧
    ((post_process refs m).length : Int) ≤ max 1 m := by
  refine ⟨?_, ?_, ?_⟩
  · exact (dedupAux_pairwise refs []).sublist (List.take_sublist _ _)
  · exact (List.take_sublist _ _).trans (dedupAux_sublist refs [])
  · have h1 : (post_process refs m).length ≤ (max 1 m).toNat := by
      unfold post_process
      rw [List.length_take]
      exact Nat.min_le_left _ _
    omega

/-- C7: a claim that is empty after stripping yields the structured
error result through the normal return value, and the execution
performs no external call at all (the call trace is empty).  The
embedding is a total function, so no exception escapes. -/
theorem C7_empty_claim (settings : Settings) (env : Env)
    (args : AnalyzeArgs) (h : pyStrip args.claim = "") :
    analyze_claim settings env args = (.error "Empty claim", []) := by
  unfold analyze_claim
  rw [h]
  rfl

theorem C7_empty_claim_witness :
    pyStrip "   " = "" ∧
    analyze_claim defaultSettings offlineEnv { claim := "   " } =
      (.error "Empty claim", []) :=
  ⟨by decide, C7_empty_claim defaultSettings offlineEnv _ (by decide)⟩

/-- C6: the deterministic fallback table.  A claim whose lowercased
text contains "money", "wealth" or "rich" gets the fixed 3-reference
money list; otherwise "helps themselves" gets the fixed 4-reference
list; otherwise the generic 3-reference list — each truncated to
`max 1 max_results` entries, as the final
`refs[: max(1, int(max_results))]` applies to every branch. -/
theorem C6_fallback_table (claim : String) (m : Int) :
    ((pyContains (pyLower claim) "money" ||
      pyContains (pyLower claim) "wealth" ||
      pyContains (pyLower claim) "rich") = true →
      _fallback_candidate_refs claim m =
        ["1 Timothy 6:10", "Matthew 6:24",
         "Proverbs 11:28"].take (max 1 m).toNat) ∧
    ((pyContains (pyLower claim) "money" ||
      pyContains (pyLower claim) "wealth" ||
      pyContains (pyLower claim) "rich") = false →
      pyContains (pyLower claim) "helps themselves" = true →
      _fallback_candidate_refs claim m =
        ["Proverbs 28:26", "Psalm 37:5", "Jeremiah 17:5",
         "Matthew 6:33"].take (max 1 m).toNat) ∧
    ((pyContains (pyLower claim) "money" ||
      pyContains (pyLower claim) "wealth" ||
      pyContains (pyLower claim) "rich") = false →
      pyContains (pyLower claim) "helps themselves" = false →
      _fallback_candidate_refs claim m =
        ["John 3:16", "Psalm 23:1-3",
         "Matthew 5:9-12"].take (max 1 m).toNat) := by
  refine ⟨?_, ?_, ?_⟩ <;> intro h1 <;>
    first
      | (intro h2; unfold _fallback_candidate_refs;
         simp only [Bool.or_assoc] at h1 ⊢; rw [h1, h2]; simp)
      | (unfold _fallback_candidate_refs;
         simp only [Bool.or_assoc] at h1 ⊢; rw [h1]; simp)

theorem C6_fallback_table_witness :
    (pyContains (pyLower "Money is the root of all evil") "money" ||
     pyContains (pyLower "Money is the root of all evil") "wealth" ||
     pyContains (pyLower "Money is the root of all evil") "rich") = true ∧
    _fallback_candidate_refs "Money is the root of all evil" 5 =
      ["1 Timothy 6:10", "Matthew 6:24",
       "Proverbs 11:28"].take (max 1 (5 : Int)).toNat :=
  ⟨by decide,
    (C6_fallback_table "Money is the root of all evil" 5).1 (by decide)⟩

lemma passageFromBody_translation (body : FetchBody) (r t : String)
    (p : Passage) (h : passageFromBody body r t = some p) :
    p.translation = t := by
  unfold passageFromBody at h
  by_cases hv : body.verses = []
  · rw [if_pos hv] at h; exact absurd h (by simp)
  · rw [if_neg hv] at h
    have := Option.some.inj h
    rw [← this]

lemma fetch_translation (client : String → Int × FetchBody)
    (reference translation : String) (n : Int) (p : Passage)
    (h : (fetch_passage_with_context client reference translation n).1 =
      some p) : p.translation = translation := by
  unfold fetch_passage_with_context at h
  split at h
  · split at h
    · split at h
      · exact absurd h (by simp)
      · exact passageFromBody_translation _ _ _ _ h
    · exact absurd h (by simp)
  · exact passageFromBody_translation _ _ _ _ h

/-- C8: `get_reference` returns the empty-reference error exactly for
inputs blank after trimming; for a nonempty trimmed reference the
not-found error appears exactly when the passage fetcher yields
absent, and a fetched passage object (carrying its reference, text,
translation and raw fields) is returned unchanged otherwise. -/
theorem C8_get_reference (settings : Settings)
    (client : String → Int × FetchBody) (args : GetRefArgs) :
    (pyStrip args.reference = "" →
      get_reference settings client args = .error "Empty reference") ∧
    (pyStrip args.reference ≠ "" →
      ((get_reference settings client args =
          .error ("Reference not found: " ++ pyStrip args.reference)) ↔
        (fetch_passage_with_context client (pyStrip args.reference)
          (pyLower (pyOrStr args.translation settings.DEFAULT_TRANSLATION))
          (args.context_verses.getD settings.DEFAULT_CONTEXT_VERSES)).1 =
            none) ∧
      (∀ p,
        (fetch_passage_with_context client (pyStrip args.reference)
          (pyLower (pyOrStr args.translation settings.DEFAULT_TRANSLATION))
          (args.context_verses.getD settings.DEFAULT_CONTEXT_VERSES)).1 =
            some p →
        get_reference settings client args = .ok p)) := by
  constructor
  · intro h
    unfold get_reference
    rw [h]
    rfl
  · intro h
    constructor
    · constructor
      · intro hr
        unfold get_reference at hr
        rw [if_neg h] at hr
        cases hf : (fetch_passage_with_context client (pyStrip args.reference)
            (pyLower (pyOrStr args.translation settings.DEFAULT_TRANSLATION))
            (args.context_verses.getD settings.DEFAULT_CONTEXT_VERSES)).1 with
        | none => rfl
        | some p => rw [hf] at hr; exact absurd hr (by simp)
      · intro hf
        unfold get_reference
        rw [if_neg h, hf]
    · intro p hf
      unfold get_reference
      rw [if_neg h, hf]

theorem C8_get_reference_witness :
    pyStrip "  " = "" ∧
    get_reference defaultSettings (fun _ => (404, ⟨none, []⟩))
      { reference := "  " } = .error "Empty reference" ∧
    pyStrip "Matthew 3:13" ≠ "" ∧
    get_reference defaultSettings (fun _ => (404, ⟨none, []⟩))
      { reference := "Matthew 3:13" } =
        .error ("Reference not found: " ++ pyStrip "Matthew 3:13") :=
  ⟨by decide,
    (C8_get_reference defaultSettings (fun _ => (404, ⟨none, []⟩))
      { reference := "  " }).1 (by decide),
    by decide,
    ((C8_get_reference defaultSettings (fun _ => (404, ⟨none, []⟩))
      { reference := "Matthew 3:13" }).2 (by decide)).1.mpr (by decide)⟩

/-- C10: every non-error response echoes the stripped claim (for
`analyze_claim`) and carries the lowercased chosen translation code
(`args` value when truthy, else the configured default) in both
handlers; the caller's padding and casing are never echoed. -/
theorem C10_echo_normalization :
    (∀ (settings : Settings) (env : Env) (args : AnalyzeArgs)
      (c tr : String) (n : Int) (cs chs : List Passage),
      (analyze_claim settings env args).1 = .ok c tr n cs chs →
      c = pyStrip args.claim ∧
      tr = pyLower (pyOrStr args.translation
        settings.DEFAULT_TRANSLATION)) ∧
    (∀ (settings : Settings) (client : String → Int × FetchBody)
      (args : GetRefArgs) (p : Passage),
      get_reference settings client args = .ok p →
      p.translation = pyLower (pyOrStr args.translation
        settings.DEFAULT_TRANSLATION)) := by
  constructor
  · intro settings env args c tr n cs chs h
    unfold analyze_claim at h
    by_cases hc : pyStrip args.claim = ""
    · rw [hc] at h
      exact absurd h (by simp)
    · rw [if_neg hc] at h
      have h2 := AnalyzeResult.ok.inj h.symm
      exact ⟨h2.1, h2.2.1⟩
  · intro settings client args p h
    unfold get_reference at h
    by_cases hr : pyStrip args.reference = ""
    · rw [if_pos hr] at h
      exact absurd h (by simp)
    · rw [if_neg hr] at h
      cases hf : (fetch_passage_with_context client (pyStrip args.reference)
          (pyLower (pyOrStr args.translation settings.DEFAULT_TRANSLATION))
          (args.context_verses.getD settings.DEFAULT_CONTEXT_VERSES)).1 with
      | none => rw [hf] at h; exact absurd h (by simp)
      | some q =>
        rw [hf] at h
        have hq : q = p := GetRefResult.ok.inj h
        exact hq ▸ fetch_translation _ _ _ _ _ hf

theorem C10_echo_normalization_witness :
    "Hi" = pyStrip "  Hi  " ∧
    "kjv" = pyLower (pyOrStr (some "KJV")
      defaultSettings.DEFAULT_TRANSLATION) :=
  C10_echo_normalization.1 defaultSettings offlineEnv
    { claim := "  Hi  ", translation := some "KJV" } "Hi" "kjv" 7 [] []
    (by decide)

/-- C3: the Reference Normalizer.  The three concrete cases from the
spec; the general single-sided, matching two-sided and cross two-sided
shapes; and absence whenever the first (or a present second) dash side
fails to parse — an unknown book code or a side without exactly three
dot components makes `parseUsfmSide` yield `none`.  The embedding is a
total function, so no exception escapes. -/
theorem C3_normalizer :
    _normalize_api_bible_id "JHN.3.16" = some "John 3:16" ∧
    _normalize_api_bible_id "JHN.3.16-JHN.3.18" = some "John 3:16-18" ∧
    _normalize_api_bible_id "bad.input" = none ∧
    (∀ (s b : String) (c v : Int), pySplitChar s '-' = [s] →
      parseUsfmSide s = some (b, c, v) →
      _normalize_api_bible_id s =
        some (b ++ " " ++ toString c ++ ":" ++ toString v)) ∧
    (∀ (s p q b b2 : String) (c v c2 v2 : Int),
      pySplitChar s '-' = [p, q] →
      parseUsfmSide p = some (b, c, v) →
      parseUsfmSide q = some (b2, c2, v2) →
      b = b2 → c = c2 →
      _normalize_api_bible_id s =
        some (b ++ " " ++ toString c ++ ":" ++ toString v ++ "-"
          ++ toString v2)) ∧
    (∀ (s p q b b2 : String) (c v c2 v2 : Int),
      pySplitChar s '-' = [p, q] →
      parseUsfmSide p = some (b, c, v) →
      parseUsfmSide q = some (b2, c2, v2) →
      ¬ (b = b2 ∧ c = c2) →
      _normalize_api_bible_id s =
        some (b ++ " " ++ toString c ++ ":" ++ toString v ++ "-"
          ++ b2 ++ " " ++ toString c2 ++ ":" ++ toString v2)) ∧
    (∀ (s p : String) (rest : List String),
      pySplitChar s '-' = p :: rest → parseUsfmSide p = none →
      _normalize_api_bible_id s = none) ∧
    (∀ (s p q : String) (rest : List String),
      pySplitChar s '-' = p :: q :: rest → parseUsfmSide q = none →
      _normalize_api_bible_id s = none) := by
  refine ⟨by decide, by decide, by decide, ?_, ?_, ?_, ?_, ?_⟩
  · intro s b c v h1 h2
    by_cases hs : s = ""
    · rw [hs] at h2
      have hnone : parseUsfmSide "" = none := by decide
      rw [hnone] at h2
      exact absurd h2 (by simp)
    · unfold _normalize_api_bible_id
      rw [if_neg hs, h1]
      simp only [normCore, h2]
  · intro s p q b b2 c v c2 v2 h1 h2 h3 hb hc
    by_cases hs : s = ""
    · rw [hs] at h1
      have hsp : pySplitChar "" '-' = [""] := by decide
      rw [hsp] at h1
      exact absurd h1 (by simp)
    · unfold _normalize_api_bible_id
      rw [if_neg hs, h1]
      simp only [normCore, h2, h3]
      rw [if_pos ⟨hb, hc⟩]
  · intro s p q b b2 c v c2 v2 h1 h2 h3 hne
    by_cases hs : s = ""
    · rw [hs] at h1
      have hsp : pySplitChar "" '-' = [""] := by decide
      rw [hsp] at h1
      exact absurd h1 (by simp)
    · unfold _normalize_api_bible_id
      rw [if_neg hs, h1]
      simp only [normCore, h2, h3]
      rw [if_neg hne]
  · intro s p rest h1 h2
    by_cases hs : s = ""
    · rw [hs]; decide
    · unfold _normalize_api_bible_id
      rw [if_neg hs, h1]
      simp only [normCore, h2]
  · intro s p q rest h1 h2
    by_cases hs : s = ""
    · rw [hs]; decide
    · unfold _normalize_api_bible_id
      rw [if_neg hs, h1]
      cases hp : parseUsfmSide p with
      | none => simp only [normCore, hp]
      | some t =>
        obtain ⟨b, c, v⟩ := t
        simp only [normCore, hp, h2]

theorem C3_normalizer_witness :
    pySplitChar "MAT.5.9" '-' = ["MAT.5.9"] ∧
    parseUsfmSide "MAT.5.9" = some ("Matthew", 5, 9) ∧
    _normalize_api_bible_id "MAT.5.9" =
      some ("Matthew" ++ " " ++ toString (5 : Int) ++ ":"
        ++ toString (9 : Int)) :=
  ⟨by decide, by decide,
    (C3_normalizer.2.2.2.1 "MAT.5.9" "Matthew" 5 9 (by decide) (by decide))⟩

lemma head_dropWhile_false (p : Char → Bool) :
    ∀ (l : List Char) (c : Char), (l.dropWhile p).head? = some c →
      p c = false := by
  intro l
  induction l with
  | nil => intro c h; simp at h
  | cons a t ih =>
    intro c h
    by_cases hp : p a
    · rw [List.dropWhile_cons_of_pos hp] at h
      exact ih c h
    · rw [List.dropWhile_cons_of_neg hp] at h
      simp only [List.head?_cons, Option.some.injEq] at h
      rw [← h]
      exact Bool.not_eq_true _ ▸ hp

lemma dropWhile_dropWhile (p : Char → Bool) (l : List Char) :
    (l.dropWhile p).dropWhile p = l.dropWhile p := by
  cases h : l.dropWhile p with
  | nil => rfl
  | cons c t =>
    have hc : p c = false :=
      head_dropWhile_false p l c (by rw [h]; rfl)
    exact List.dropWhile_cons_of_neg (by simp [hc])

lemma dropWhile_eq_self_of_head (p : Char → Bool) (l : List Char)
    (h : ∀ c, l.head? = some c → p c = false) :
    l.dropWhile p = l := by
  cases l with
  | nil => rfl
  | cons a t =>
    have := h a rfl
    exact List.dropWhile_cons_of_neg (by simp [this])

lemma getLast?_dropWhile (p : Char → Bool) :
    ∀ l : List Char, l.dropWhile p ≠ [] →
      (l.dropWhile p).getLast? = l.getLast? := by
  intro l
  induction l with
  | nil => intro h; exact absurd rfl h
  | cons a t ih =>
    intro h
    by_cases hp : p a
    · rw [List.dropWhile_cons_of_pos hp] at h ⊢
      cases t with
      | nil => exact absurd rfl h
      | cons b u =>
        rw [List.getLast?_cons_cons]
        exact ih h
    · rw [List.dropWhile_cons_of_neg hp]

lemma stripL_idem (l : List Char) : stripL (stripL l) = stripL l := by
  unfold stripL
  set z := l.reverse.dropWhile isPySpace with hz
  set x := z.reverse.dropWhile isPySpace with hx
  by_cases hxe : x = []
  · rw [hxe]; rfl
  · have hrev : x.reverse.dropWhile isPySpace = x.reverse := by
      apply dropWhile_eq_self_of_head
      intro c hc
      rw [List.head?_reverse] at hc
      have hgl : x.getLast? = z.reverse.getLast? :=
        getLast?_dropWhile isPySpace z.reverse hxe
      rw [hgl, List.getLast?_reverse] at hc
      have hzz : z.dropWhile isPySpace = z := dropWhile_dropWhile _ _
      cases hzc : z with
      | nil => rw [hzc] at hc; simp at hc
      | cons d u =>
        rw [hzc] at hc
        simp only [List.head?_cons, Option.some.injEq] at hc
        have hd : isPySpace d = false := by
          apply head_dropWhile_false isPySpace l.reverse
          rw [← hz, hzc]; rfl
        rw [← hc]; exact hd
    rw [hrev, List.reverse_reverse, hx]
    exact dropWhile_dropWhile _ _

lemma pyStrip_idem (s : String) : pyStrip (pyStrip s) = pyStrip s := by
  unfold pyStrip
  rw [stripL_idem]

lemma string_eq_empty_of_data (s : String) (h : s.data = []) : s = "" := by
  cases s
  simp only at h
  rw [h]

lemma pyUpper_ne_empty (s : String) (h : s ≠ "") : pyUpper s ≠ "" := by
  intro hu
  apply h
  have hdata : s.data.map Char.toUpper = ([] : List Char) :=
    congrArg String.data hu
  exact string_eq_empty_of_data s (List.map_eq_nil_iff.mp hdata)

lemma parseSampledRefs_mem (t : String) (x : String)
    (h : x ∈ parseSampledRefs t) : pyStrip x = x ∧ x ≠ "" := by
  unfold parseSampledRefs at h
  have h2 := List.mem_filter.mp h
  obtain ⟨y, hy, hxy⟩ := List.mem_map.mp h2.1
  constructor
  · rw [← hxy]; exact pyStrip_idem y
  · simpa using h2.2

lemma dedupKey_ne_empty (x : String) (hx : pyStrip x = x) (hne : x ≠ "") :
    dedupKey x ≠ "" := by
  unfold dedupKey
  rw [hx]
  exact pyUpper_ne_empty x hne

lemma post_process_cons_ne_nil (h : String) (t : List String) (m : Int)
    (hk : dedupKey h ≠ "") : post_process (h :: t) m ≠ [] := by
  unfold post_process dedupAux
  rw [if_pos ⟨hk, by simp⟩]
  have h1 : 1 ≤ (max 1 m).toNat := by omega
  obtain ⟨k, hke⟩ : ∃ k, (max 1 m).toNat = k + 1 :=
    ⟨(max 1 m).toNat - 1, by omega⟩
  rw [hke]
  simp [List.take]

lemma fallback_head_key (claim : String) (m : Int) :
    ∃ h t, _fallback_candidate_refs claim m = h :: t ∧ dedupKey h ≠ "" := by
  obtain ⟨k, hke⟩ : ∃ k, (max 1 m).toNat = k + 1 :=
    ⟨(max 1 m).toNat - 1, by omega⟩
  by_cases h1 : (pyContains (pyLower claim) "money" ||
      pyContains (pyLower claim) "wealth" ||
      pyContains (pyLower claim) "rich") = true
  · refine ⟨"1 Timothy 6:10",
      List.take k ["Matthew 6:24", "Proverbs 11:28"], ?_, by decide⟩
    simp only [_fallback_candidate_refs, h1, hke]
    simp [List.take_succ_cons]
  · rw [Bool.not_eq_true] at h1
    by_cases h2 : pyContains (pyLower claim) "helps themselves" = true
    · refine ⟨"Proverbs 28:26",
        List.take k ["Psalm 37:5", "Jeremiah 17:5", "Matthew 6:33"], ?_,
        by decide⟩
      simp only [_fallback_candidate_refs, h1, h2, hke]
      simp [List.take_succ_cons]
    · rw [Bool.not_eq_true] at h2
      refine ⟨"John 3:16",
        List.take k ["Psalm 23:1-3", "Matthew 5:9-12"], ?_, by decide⟩
      simp only [_fallback_candidate_refs, h1, h2, hke]
      simp [List.take_succ_cons]

lemma post_llm_fb_ne_nil (sample : Except Unit String) (claim : String)
    (m : Int) :
    post_process
      (if extract_references_via_llm sample = [] then
        _fallback_candidate_refs claim m
      else extract_references_via_llm sample) m ≠ [] := by
  by_cases he : extract_references_via_llm sample = []
  · rw [if_pos he]
    obtain ⟨h, t, hht, hk⟩ := fallback_head_key claim m
    rw [hht]
    exact post_process_cons_ne_nil h t m hk
  · rw [if_neg he]
    cases hx : extract_references_via_llm sample with
    | nil => exact absurd hx he
    | cons h t =>
      apply post_process_cons_ne_nil
      cases sample with
      | error e => exact absurd hx (by simp [extract_references_via_llm])
      | ok ttext =>
        have hmem : h ∈ parseSampledRefs ttext := by
          have : extract_references_via_llm (.ok ttext) =
              parseSampledRefs ttext := rfl
          rw [← this, hx]
          exact List.mem_cons_self _ _
        have hp := parseSampledRefs_mem ttext h hmem
        exact dedupKey_ne_empty h hp.1 hp.2

/-- C1 (amended): the resolved candidate list of `analyze_claim` is
non-empty whenever the fallback chain is reachable — no search
credential is configured, or the search call raised — because the
sampling extraction produces only nonblank stripped references and the
keyword fallback is a nonempty fixed list surviving dedup and the
`max 1` cap.  But when a credential is configured and the search
succeeds, the list is exactly the post-processed search result, which
is empty for a search returning zero references. -/
theorem C1_candidate_resolution (settings : Settings) (env : Env)
    (claim : String) :
    (pyTruthyOpt settings.BIBLE_API_KEY = false →
      (resolve_candidates settings env claim).1 ≠ []) ∧
    (∀ e, env.searchOutcome = .error e →
      (resolve_candidates settings env claim).1 ≠ []) ∧
    (∀ refs, pyTruthyOpt settings.BIBLE_API_KEY = true →
      env.searchOutcome = .ok refs →
      (resolve_candidates settings env claim).1 =
        post_process refs settings.DEFAULT_MAX_RESULTS) ∧
    post_process [] settings.DEFAULT_MAX_RESULTS = [] := by
  refine ⟨?_, ?_, ?_, by simp [post_process, dedupAux]⟩
  · intro hk
    unfold resolve_candidates
    rw [hk]
    exact post_llm_fb_ne_nil env.sampleExtract claim
      settings.DEFAULT_MAX_RESULTS
  · intro e he
    unfold resolve_candidates
    by_cases hk : pyTruthyOpt settings.BIBLE_API_KEY = true
    · rw [hk, he]
      exact post_llm_fb_ne_nil env.sampleExtract claim
        settings.DEFAULT_MAX_RESULTS
    · rw [Bool.not_eq_true] at hk
      rw [hk]
      exact post_llm_fb_ne_nil env.sampleExtract claim
        settings.DEFAULT_MAX_RESULTS
  · intro refs hk hs
    unfold resolve_candidates
    rw [hk, hs]
    rfl

/-- C1 as stated is false: with a configured credential and a search
call that succeeds with zero references, the post-processed candidate
list is empty — the deterministic fallback is applied only in the
`except` branch of the search call, never on an empty success. -/
theorem C1_counterexample :
    (resolve_candidates keyedSettings emptySearchEnv
      "Money is the root of all evil").1 = [] ∧
    pyTruthyOpt keyedSettings.BIBLE_API_KEY = true ∧
    emptySearchEnv.searchOutcome = .ok [] := by
  refine ⟨by decide, by decide, rfl⟩

theorem C1_candidate_resolution_witness :
    pyTruthyOpt defaultSettings.BIBLE_API_KEY = false ∧
    (resolve_candidates defaultSettings offlineEnv
      "Money is the root of all evil").1 ≠ [] :=
  ⟨by decide,
    (C1_candidate_resolution defaultSettings offlineEnv
      "Money is the root of all evil").1 (by decide)⟩

/-- C9 (amended): the passage fetcher's retry and result discipline.
On a non-success first status it retries exactly once, and only when
`re.match("^(\\d)\\s+(.*)$", reference)` succeeds — first character a
digit, at least one whitespace character next, and no interior
newline in the remainder (`ordinalAlt`) — using the reference with
that whitespace removed; otherwise it yields absent after the single
request.  A non-success retry yields absent; a success with an empty
verse list yields absent; on success the passage text is the trimmed
verse texts joined with single spaces (then trimmed), and the
reference is the upstream-reported one when truthy — an absent or
empty upstream reference falls back to the input reference. -/
theorem C9_passage_fetcher (client : String → Int × FetchBody)
    (reference translation : String) (n : Int) :
    ((client (buildUrl reference translation)).1 ≠ 200 →
      ordinalAlt reference = none →
      fetch_passage_with_context client reference translation n =
        (none, [buildUrl reference translation])) ∧
    (∀ alt, (client (buildUrl reference translation)).1 ≠ 200 →
      ordinalAlt reference = some alt →
      (client (buildUrl alt translation)).1 ≠ 200 →
      fetch_passage_with_context client reference translation n =
        (none,
         [buildUrl reference translation, buildUrl alt translation])) ∧
    (∀ alt, (client (buildUrl reference translation)).1 ≠ 200 →
      ordinalAlt reference = some alt →
      (client (buildUrl alt translation)).1 = 200 →
      fetch_passage_with_context client reference translation n =
        (passageFromBody (client (buildUrl alt translation)).2 reference
          translation,
         [buildUrl reference translation, buildUrl alt translation])) ∧
    ((client (buildUrl reference translation)).1 = 200 →
      fetch_passage_with_context client reference translation n =
        (passageFromBody (client (buildUrl reference translation)).2
          reference translation,
         [buildUrl reference translation])) ∧
    (∀ (body : FetchBody) (r t : String), body.verses = [] →
      passageFromBody body r t = none) ∧
    (∀ (body : FetchBody) (r t : String), body.verses ≠ [] →
      passageFromBody body r t = some
        { reference := pyOrStr body.reference? r
          text := pyStrip (sepJoin " " (body.verses.map pyStrip))
          translation := t
          raw := body }) ∧
    (∀ (d : Char) (rest : List Char), reference.data = d :: rest →
      d.isDigit = true →
      rest.takeWhile isPySpace ≠ [] →
      ¬ (rest.dropWhile isPySpace).contains '\n' →
      ordinalAlt reference =
        some (String.mk (d :: rest.dropWhile isPySpace))) ∧
    (∀ (d : Char) (rest : List Char), reference.data = d :: rest →
      (d.isDigit = false ∨ rest.takeWhile isPySpace = []) →
      ordinalAlt reference = none) := by
  refine ⟨?_, ?_, ?_, ?_, ?_, ?_, ?_, ?_⟩
  · intro h1 halt
    unfold fetch_passage_with_context
    rw [if_pos h1, halt]
  · intro alt h1 halt h2
    unfold fetch_passage_with_context
    rw [if_pos h1, halt]
    simp only []
    rw [if_pos h2]
  · intro alt h1 halt h2
    unfold fetch_passage_with_context
    rw [if_pos h1, halt]
    simp only []
    rw [if_neg (by simp [h2])]
  · intro h1
    unfold fetch_passage_with_context
    rw [if_neg (by simp [h1])]
  · intro body r t h
    unfold passageFromBody
    rw [if_pos h]
  · intro body r t h
    unfold passageFromBody
    rw [if_neg h]
  · intro d rest hdata hdig hws hnl
    unfold ordinalAlt
    rw [hdata]
    simp only [hdig, if_true]
    rw [if_neg hws, if_pos hnl]
  · intro d rest hdata hcase
    unfold ordinalAlt
    rw [hdata]
    rcases hcase with hd | hws
    · simp [hd]
    · simp [hws]

theorem C9_passage_fetcher_witness :
    (retryClient (buildUrl "1 Timothy 6:10" "kjv")).1 ≠ 200 ∧
    ordinalAlt "1 Timothy 6:10" = some "1Timothy 6:10" ∧
    (retryClient (buildUrl "1Timothy 6:10" "kjv")).1 = 200 ∧
    fetch_passage_with_context retryClient "1 Timothy 6:10" "kjv" 7 =
      (passageFromBody (retryClient (buildUrl "1Timothy 6:10" "kjv")).2
        "1 Timothy 6:10" "kjv",
       [buildUrl "1 Timothy 6:10" "kjv", buildUrl "1Timothy 6:10" "kjv"]) :=
  ⟨by decide, by decide, by decide,
    (C9_passage_fetcher retryClient "1 Timothy 6:10" "kjv" 7).2.2.1
      "1Timothy 6:10" (by decide) (by decide) (by decide)⟩

/-- C9 as stated is false on one point: for a success whose body
reports a present but empty `reference` field, the claim prescribes
that empty upstream reference, yet the code's `data.get("reference")
or reference` discards the falsy empty string and echoes the input
reference instead. -/
theorem C9_counterexample :
    (fetch_passage_with_context emptyRefClient "Matthew 3:13" "kjv" 7).1.map
      Passage.reference = some "Matthew 3:13" ∧
    (emptyRefClient (buildUrl "Matthew 3:13" "kjv")).2.reference? =
      some "" ∧
    ("Matthew 3:13" : String) ≠ "" := by
  refine ⟨by decide, by decide, by decide⟩

lemma data_mk (l : List Char) : (String.mk l).data = l := rfl

lemma make_snippet_of_le (text : String) (limit : Int)
    (h : ((collapse text.data).length : Int) ≤ limit) :
    make_snippet text limit = String.mk (collapse text.data) := by
  simp only [make_snippet]
  rw [if_pos h]

lemma make_snippet_of_gt (text : String) (limit : Int)
    (h : ¬ ((collapse text.data).length : Int) ≤ limit) :
    make_snippet text limit =
      String.mk (pySliceTo (collapse text.data) (limit - 1) ++ ['…']) := by
  simp only [make_snippet]
  rw [if_neg h]

/-- C5 (amended): for every limit at least 1 the snippet never
exceeds `limit` characters; and whenever the whitespace-collapsed,
end-trimmed form of the text already fits in `limit`, that form is
returned unchanged with no ellipsis appended (the latter for every
limit).  For `limit ≤ 0` the length bound fails
(`C5_counterexample`). -/
theorem C5_snippet_bound (text : String) (limit : Int) :
    (1 ≤ limit → ((make_snippet text limit).length : Int) ≤ limit) ∧
    (((collapse text.data).length : Int) ≤ limit →
      make_snippet text limit = String.mk (collapse text.data)) := by
  constructor
  · intro h1
    by_cases hle : ((collapse text.data).length : Int) ≤ limit
    · rw [make_snippet_of_le text limit hle]
      exact hle
    · rw [make_snippet_of_gt text limit hle]
      have hslice : (pySliceTo (collapse text.data) (limit - 1)).length
          = min (limit - 1).toNat (collapse text.data).length := by
        unfold pySliceTo
        rw [if_neg (by omega : ¬ limit - 1 < 0)]
        exact List.length_take _ _
      have hlen : (String.mk (pySliceTo (collapse text.data) (limit - 1)
          ++ ['…'])).length
          = (pySliceTo (collapse text.data) (limit - 1)).length + 1 := by
        simp [String.length]
      omega
  · exact make_snippet_of_le text limit

/-- C5 as stated fails at limit 0: the truncation branch produces
`s[: -1] + "…"`, whose length is that of the collapsed text, not at
most 0. -/
theorem C5_counterexample :
    make_snippet "ab" 0 = "a…" ∧
    ((make_snippet "ab" 0).length : Int) = 2 ∧ ¬ ((2 : Int) ≤ 0) := by
  refine ⟨by decide, by decide, by decide⟩

theorem C5_snippet_bound_witness :
    ((1 : Int) ≤ 5 ∧ ((make_snippet "hello world" 5).length : Int) ≤ 5) ∧
    (((collapse ("hi there" : String).data).length : Int) ≤ 20 ∧
      make_snippet "hi there" 20 =
        String.mk (collapse ("hi there" : String).data)) :=
  ⟨⟨by decide, (C5_snippet_bound "hello world" 5).1 (by decide)⟩,
   ⟨by decide, (C5_snippet_bound "hi there" 20).2 (by decide)⟩⟩

lemma wordsAux_append_word (w : List Char)
    (hsp : ∀ c ∈ w, isPySpace c = false) :
    ∀ (rest acc : List Char),
      wordsAux (w ++ rest) acc = wordsAux rest (w.reverse ++ acc) := by
  induction w with
  | nil => intro rest acc; simp
  | cons c w2 ih =>
    intro rest acc
    have hc : isPySpace c = false := hsp c (List.mem_cons_self _ _)
    show wordsAux (c :: (w2 ++ rest)) acc = _
    simp only [wordsAux]
    rw [if_neg (by simp [hc])]
    rw [ih (fun x hx => hsp x (List.mem_cons_of_mem _ hx)) rest (c :: acc)]
    simp

lemma wordsAux_mem (l : List Char) : ∀ (acc : List Char),
    (∀ c ∈ acc, isPySpace c = false) →
    ∀ w ∈ wordsAux l acc, w ≠ [] ∧ ∀ c ∈ w, isPySpace c = false := by
  induction l with
  | nil =>
    intro acc hacc w hw
    unfold wordsAux at hw
    by_cases ha : acc = []
    · rw [if_pos ha] at hw; simp at hw
    · rw [if_neg ha] at hw
      simp only [List.mem_singleton] at hw
      subst hw
      refine ⟨by simpa using ha, ?_⟩
      intro c hc
      exact hacc c (List.mem_reverse.mp hc)
  | cons a t ih =>
    intro acc hacc w hw
    unfold wordsAux at hw
    by_cases hs : isPySpace a = true
    · rw [if_pos hs] at hw
      by_cases ha : acc = []
      · rw [if_pos ha] at hw
        exact ih [] (by simp) w hw
      · rw [if_neg ha] at hw
        rcases List.mem_cons.mp hw with h1 | h1
        · subst h1
          exact ⟨by simpa using ha,
            fun c hc => hacc c (List.mem_reverse.mp hc)⟩
        · exact ih [] (by simp) w h1
    · rw [if_neg hs] at hw
      refine ih (a :: acc) ?_ w hw
      intro c hc
      rcases List.mem_cons.mp hc with h1 | h1
      · subst h1
        exact Bool.not_eq_true _ ▸ hs
      · exact hacc c h1

lemma joinSp_cons_ne_nil (w : List Char) (ws : List (List Char))
    (hw : w ≠ []) : joinSp (w :: ws) ≠ [] := by
  cases ws with
  | nil => simpa [joinSp] using hw
  | cons w2 ws2 => simp [joinSp]

lemma wordsAux_single (w : List Char) (hne : w ≠ [])
    (hsp : ∀ c ∈ w, isPySpace c = false) : wordsAux w [] = [w] := by
  have h2 := wordsAux_append_word w hsp [] []
  simp only [List.append_nil] at h2
  rw [h2]
  unfold wordsAux
  rw [if_neg (by simpa using hne)]
  simp

lemma wordsAux_joinSp (ws : List (List Char)) :
    (∀ w ∈ ws, w ≠ [] ∧ ∀ c ∈ w, isPySpace c = false) →
    wordsAux (joinSp ws) [] = ws := by
  induction ws with
  | nil => intro _; rfl
  | cons w ws2 ih =>
    intro hws
    have hw := hws w (List.mem_cons_self _ _)
    cases ws2 with
    | nil =>
      show wordsAux (joinSp [w]) [] = [w]
      show wordsAux w [] = [w]
      exact wordsAux_single w hw.1 hw.2
    | cons w2 ws3 =>
      show wordsAux (w ++ ' ' :: joinSp (w2 :: ws3)) [] = w :: w2 :: ws3
      rw [wordsAux_append_word w hw.2 (' ' :: joinSp (w2 :: ws3)) []]
      rw [List.append_nil]
      unfold wordsAux
      rw [if_pos (by decide : isPySpace ' ' = true)]
      rw [if_neg (by simpa using hw.1)]
      rw [List.reverse_reverse]
      congr 1
      exact ih (fun x hx => hws x (List.mem_cons_of_mem _ hx))

lemma collapse_idem (l : List Char) : collapse (collapse l) = collapse l := by
  unfold collapse
  rw [wordsAux_joinSp (wordsAux l []) (wordsAux_mem l [] (by simp))]

lemma GoodF_joinSp (ws : List (List Char))
    (hws : ∀ w ∈ ws, w ≠ [] ∧ ∀ c ∈ w, isPySpace c = false) :
    GoodF (joinSp ws) := by
  induction ws with
  | nil => exact GoodF.nil
  | cons w ws2 ih =>
    have hw := hws w (List.mem_cons_self _ _)
    cases ws2 with
    | nil => exact GoodF.single w hw.1 hw.2
    | cons w2 ws3 =>
      have hj := ih (fun x hx => hws x (List.mem_cons_of_mem _ hx))
      exact GoodF.cons w (joinSp (w2 :: ws3)) hw.1 hw.2
        (joinSp_cons_ne_nil w2 ws3 (hws w2 (by simp)).1) hj

lemma GoodF_collapse (l : List Char) : GoodF (collapse l) :=
  GoodF_joinSp (wordsAux l []) (wordsAux_mem l [] (by simp))

lemma collapse_eq_self (l : List Char) (h : GoodF l) : collapse l = l := by
  induction h with
  | nil => rfl
  | single w hne hsp =>
    unfold collapse
    rw [wordsAux_single w hne hsp]
    rfl
  | cons w l2 hne hsp hl2ne hg ih =>
    unfold collapse
    rw [wordsAux_append_word w hsp (' ' :: l2) []]
    rw [List.append_nil]
    unfold wordsAux
    rw [if_pos (by decide : isPySpace ' ' = true)]
    rw [if_neg (by simpa using hne)]
    rw [List.reverse_reverse]
    have hw2 : wordsAux l2 [] ≠ [] := by
      intro hnil
      apply hl2ne
      have hcl : collapse l2 = l2 := ih
      unfold collapse at hcl
      rw [hnil] at hcl
      simpa [joinSp] using hcl.symm
    cases hws : wordsAux l2 [] with
    | nil => exact absurd hws hw2
    | cons a ws2 =>
      show w ++ ' ' :: joinSp (a :: ws2) = w ++ ' ' :: l2
      have hj : joinSp (a :: ws2) = l2 := by
        rw [← hws]
        have hcl : collapse l2 = l2 := ih
        unfold collapse at hcl
        exact hcl
      rw [hj]

lemma GoodF_take_ellipsis (l : List Char) (h : GoodF l) :
    ∀ k : Nat, GoodF (l.take k ++ ['…']) := by
  induction h with
  | nil =>
    intro k
    rw [List.take_nil]
    exact GoodF.single ['…'] (by simp) (by decide)
  | single w hne hsp =>
    intro k
    apply GoodF.single
    · simp
    · intro c hc
      rcases List.mem_append.mp hc with h1 | h1
      · exact hsp c (List.take_subset _ _ h1)
      · simp only [List.mem_singleton] at h1
        subst h1
        decide
  | cons w l2 hne hsp hl2ne hg ih =>
    intro k
    rw [List.take_append_eq_append_take]
    by_cases hk : k ≤ w.length
    · rw [Nat.sub_eq_zero_of_le hk, List.take_zero, List.append_nil]
      apply GoodF.single
      · simp
      · intro c hc
        rcases List.mem_append.mp hc with h1 | h1
        · exact hsp c (List.take_subset _ _ h1)
        · simp only [List.mem_singleton] at h1
          subst h1
          decide
    · push_neg at hk
      rw [List.take_of_length_le (by omega)]
      obtain ⟨m, hm⟩ : ∃ m, k - w.length = m + 1 := ⟨k - w.length - 1, by omega⟩
      rw [hm, List.take_succ_cons, List.append_assoc]
      exact GoodF.cons w (List.take m l2 ++ ['…']) hne hsp (by simp) (ih m)

lemma pySliceTo_neg_one (l : List Char) :
    pySliceTo l (0 - 1) = l.take (l.length - 1) := by
  unfold pySliceTo
  rw [if_pos (by omega)]
  rfl

/-- C4 (amended): `make_snippet` is idempotent for every limit ≥ 0
(which includes every value reachable from the handlers, where the
limit is floored at 1).  The collapsed text is a fixed point of
collapsing, and the truncated form — a prefix of a fixed point plus
the ellipsis character — is again a fixed point, so a second
application returns it unchanged.  For negative limits idempotence
fails (`C4_counterexample`). -/
theorem C4_snippet_idempotent (text : String) (limit : Int)
    (h0 : 0 ≤ limit) :
    make_snippet (make_snippet text limit) limit =
      make_snippet text limit := by
  by_cases hle : ((collapse text.data).length : Int) ≤ limit
  · rw [make_snippet_of_le text limit hle]
    have hc : collapse (String.mk (collapse text.data)).data =
        collapse text.data := by
      rw [data_mk]
      exact collapse_idem text.data
    rw [make_snippet_of_le (String.mk (collapse text.data)) limit
      (by rw [hc]; exact hle), hc]
  · rw [make_snippet_of_gt text limit hle]
    obtain ⟨k, hk⟩ : ∃ k, pySliceTo (collapse text.data) (limit - 1) =
        (collapse text.data).take k := by
      unfold pySliceTo
      split
      · exact ⟨_, rfl⟩
      · exact ⟨_, rfl⟩
    have hgood_r : GoodF (pySliceTo (collapse text.data) (limit - 1)
        ++ ['…']) := by
      rw [hk]
      exact GoodF_take_ellipsis (collapse text.data)
        (GoodF_collapse text.data) k
    have hcr : collapse (String.mk (pySliceTo (collapse text.data)
        (limit - 1) ++ ['…'])).data =
        pySliceTo (collapse text.data) (limit - 1) ++ ['…'] := by
      rw [data_mk]
      exact collapse_eq_self _ hgood_r
    by_cases hrl : (((pySliceTo (collapse text.data) (limit - 1)
        ++ ['…']).length : Int)) ≤ limit
    · rw [make_snippet_of_le _ limit (by rw [hcr]; exact hrl), hcr]
    · rw [make_snippet_of_gt _ limit (by rw [hcr]; exact hrl), hcr]
      congr 1
      have hlim : limit = 0 := by
        by_contra hne0
        have h1 : 1 ≤ limit := by omega
        have hkval : pySliceTo (collapse text.data) (limit - 1) =
            (collapse text.data).take (limit - 1).toNat := by
          unfold pySliceTo
          rw [if_neg (by omega)]
        apply hrl
        rw [hkval]
        simp only [List.length_append, List.length_take,
          List.length_singleton]
        omega
      subst hlim
      have hsl : 1 ≤ (collapse text.data).length := by omega
      have habs : ((0 : Int) - 1).natAbs = 1 := rfl
      have hps : pySliceTo (collapse text.data) (0 - 1) =
          (collapse text.data).take ((collapse text.data).length - 1) := by
        unfold pySliceTo
        rw [if_pos (by omega), habs]
      have hplen : ((collapse text.data).take
          ((collapse text.data).length - 1)).length =
          (collapse text.data).length - 1 := by
        rw [List.length_take]
        omega
      have hrlen : (pySliceTo (collapse text.data) (0 - 1)
          ++ ['…']).length = (collapse text.data).length := by
        rw [hps]
        simp only [List.length_append, hplen, List.length_singleton]
        omega
      rw [pySliceTo_neg_one, hrlen]
      conv_lhs => rw [hps]
      rw [List.take_left' hplen, ← hps]

theorem C4_counterexample :
    make_snippet "abcdef" (-2) = "abc…" ∧
    make_snippet (make_snippet "abcdef" (-2)) (-2) = "a…" ∧
    make_snippet (make_snippet "abcdef" (-2)) (-2) ≠
      make_snippet "abcdef" (-2) := by
  refine ⟨by decide, by decide, by decide⟩

theorem C4_snippet_idempotent_witness :
    (0 : Int) ≤ 5 ∧
    make_snippet (make_snippet "hello  world" 5) 5 =
      make_snippet "hello  world" 5 :=
  ⟨by decide, C4_snippet_idempotent "hello  world" 5 (by decide)⟩
